import Mathlib

/-!
Verification of the level-generation and quest core of the promptquest game
engine (src/game_generator.py), shallowly embedded in Lean.

Tiles are integer pairs; Python sets whose iteration order is observable
(the reachable set, the water set, occupancy accumulators) are embedded as
lists with membership semantics, matching the source's iteration-sensitive
fallback scans.
-/

/-- A grid tile, identified by its integer coordinates. -/
abbrev Tile := Int × Int

/-- Bounds check `0 <= x < MAP_WIDTH and 0 <= y < MAP_HEIGHT`. -/
def in_bounds (w h : Nat) (t : Tile) : Bool :=
  0 ≤ t.1 && t.1 < (w : Int) && 0 ≤ t.2 && t.2 < (h : Int)

/-- The offsets `range(-r, r+1)` used by the square searches. -/
def offs (r : Nat) : List Int :=
  (List.range (2 * r + 1)).map (fun i => Int.ofNat i - Int.ofNat r)

/-- The `(2r+1) x (2r+1)` box around a tile, in the source's scan order
(`for dx in range(-r, r+1): for dy in range(-r, r+1)`). -/
def box_tiles (p : Tile) (r : Nat) : List Tile :=
  (offs r).flatMap (fun dx => (offs r).map (fun dy => (p.1 + dx, p.2 + dy)))

/-- The candidate predicate of `GameEngine._pick_free_reachable`:
reachable, not solid, not occupied. -/
def free_reach (reachable occupied solid : List Tile) (t : Tile) : Bool :=
  reachable.contains t && !(solid.contains t) && !(occupied.contains t)

/-- `GameEngine._pick_free_reachable` (src/game_generator.py:3337-3363).
Returns `preferred` if already valid; otherwise scans boxes of radius
`range(1, 12)` (radii 1..11), then the reachable list in order, and as a
last resort returns `preferred` unchanged. -/
def pick_free_reachable (w h : Nat) (preferred : Tile)
    (reachable occupied solid : List Tile) : Tile :=
  if free_reach reachable occupied solid preferred then preferred
  else
    match (List.range' 1 11).findSome? (fun r =>
        (box_tiles preferred r).find? (fun t =>
          in_bounds w h t && free_reach reachable occupied solid t)) with
    | some t => t
    | none =>
      match reachable.find? (fun t =>
          !(solid.contains t) && !(occupied.contains t)) with
      | some t => t
      | none => preferred

/-- Expanding square search over radii `lo, lo+1, ..., lo+n-1`,
returning the first box hit. -/
def ring_search (pred : Tile → Bool) (p : Tile) : Nat → Nat → Option Tile
  | _, 0 => none
  | lo, n + 1 =>
    match (box_tiles p lo).find? pred with
    | some t => some t
    | none => ring_search pred p (lo + 1) n

/-- Modelled from the spec: the claimed contract of the placement resolver
(spec section 4.4), with an expanding square search over radii r = 1..12
(the source uses `range(1, 12)`, i.e. radii 1..11), then a scan of the
reachable set in iteration order, then `preferred` unchanged. -/
def resolve_spec (w h : Nat) (preferred : Tile)
    (reachable occupied solid : List Tile) : Tile :=
  if free_reach reachable occupied solid preferred then preferred
  else
    match ring_search
        (fun t => in_bounds w h t && free_reach reachable occupied solid t)
        preferred 1 12 with
    | some t => t
    | none =>
      match reachable.find? (fun t =>
          !(solid.contains t) && !(occupied.contains t)) with
      | some t => t
      | none => preferred

/-- The amended contract: identical to `resolve_spec` except that the
expanding square search covers radii r = 1..11, as in the source. -/
def resolve_amended (w h : Nat) (preferred : Tile)
    (reachable occupied solid : List Tile) : Tile :=
  if free_reach reachable occupied solid preferred then preferred
  else
    match ring_search
        (fun t => in_bounds w h t && free_reach reachable occupied solid t)
        preferred 1 11 with
    | some t => t
    | none =>
      match reachable.find? (fun t =>
          !(solid.contains t) && !(occupied.contains t)) with
      | some t => t
      | none => preferred

-- Helper lemmas --------------------------------------------------------

lemma ring_search_eq_findSome (pred : Tile → Bool) (p : Tile) :
    ∀ n lo, ring_search pred p lo n =
      (List.range' lo n).findSome? (fun r => (box_tiles p r).find? pred) := by
  intro n
  induction n with
  | zero => intro lo; simp [ring_search]
  | succ m ih =>
    intro lo
    rw [List.range'_succ]
    simp only [ring_search, List.findSome?_cons]
    cases h : (box_tiles p lo).find? pred with
    | none => simpa using ih (lo + 1)
    | some t => simp

lemma resolve_amended_eq (w h : Nat) (preferred : Tile)
    (reachable occupied solid : List Tile) :
    resolve_amended w h preferred reachable occupied solid =
      pick_free_reachable w h preferred reachable occupied solid := by
  unfold resolve_amended pick_free_reachable
  rw [ring_search_eq_findSome]

lemma free_reach_iff (reachable occupied solid : List Tile) (t : Tile) :
    free_reach reachable occupied solid t = true ↔
      t ∈ reachable ∧ t ∉ solid ∧ t ∉ occupied := by
  unfold free_reach
  simp [and_assoc]

lemma free_pred_iff (occupied solid : List Tile) (t : Tile) :
    (!(solid.contains t) && !(occupied.contains t)) = true ↔
      t ∉ solid ∧ t ∉ occupied := by
  simp

lemma pick_free_reachable_free (w h : Nat) (preferred : Tile)
    (reachable occupied solid : List Tile)
    (hex : ∃ t, t ∈ reachable ∧ t ∉ solid ∧ t ∉ occupied) :
    pick_free_reachable w h preferred reachable occupied solid ∈ reachable ∧
      pick_free_reachable w h preferred reachable occupied solid ∉ solid ∧
        pick_free_reachable w h preferred reachable occupied solid ∉ occupied := by
  unfold pick_free_reachable
  by_cases h0 : free_reach reachable occupied solid preferred = true
  · simp only [h0, if_true]
    exact (free_reach_iff reachable occupied solid preferred).mp h0
  · simp only [h0, Bool.false_eq_true, if_false]
    cases hfs : (List.range' 1 11).findSome? (fun r =>
        (box_tiles preferred r).find? (fun t =>
          in_bounds w h t && free_reach reachable occupied solid t)) with
    | some t =>
      obtain ⟨r, _, hr⟩ := List.exists_of_findSome?_eq_some hfs
      have hpred := List.find?_some hr
      simp only [Bool.and_eq_true] at hpred
      exact (free_reach_iff reachable occupied solid t).mp hpred.2
    | none =>
      obtain ⟨t0, ht0r, ht0s, ht0o⟩ := hex
      have hsome : (reachable.find? (fun t =>
          !(solid.contains t) && !(occupied.contains t))).isSome := by
        rw [List.find?_isSome]
        exact ⟨t0, ht0r, (free_pred_iff occupied solid t0).mpr ⟨ht0s, ht0o⟩⟩
      cases hf : reachable.find? (fun t =>
          !(solid.contains t) && !(occupied.contains t)) with
      | none => rw [hf] at hsome; simp at hsome
      | some t =>
        have hmem := List.mem_of_find?_eq_some hf
        have hp := List.find?_some hf
        have hpred := (free_pred_iff occupied solid t).mp hp
        exact ⟨hmem, hpred.1, hpred.2⟩

-- Claim theorems (placement resolver) ----------------------------------

/-- C2: whenever some tile satisfies reachable ∧ ¬solid ∧ ¬occupied (every
such tile lies within the search bounds, since the whole reachable set is
scanned as the penultimate fallback), `_pick_free_reachable` returns a tile
that is neither occupied nor solid. -/
theorem pick_free_reachable_safe (w h : Nat) (preferred : Tile)
    (reachable occupied solid : List Tile)
    (hex : ∃ t, t ∈ reachable ∧ t ∉ solid ∧ t ∉ occupied) :
    pick_free_reachable w h preferred reachable occupied solid ∉ occupied ∧
      pick_free_reachable w h preferred reachable occupied solid ∉ solid := by
  have := pick_free_reachable_free w h preferred reachable occupied solid hex
  exact ⟨this.2.2, this.2.1⟩

theorem pick_free_reachable_safe_witness :
    (∃ t, t ∈ [((3 : Int), (3 : Int))] ∧ t ∉ ([] : List Tile) ∧
        t ∉ ([] : List Tile)) ∧
      pick_free_reachable 16 12 (0, 0) [((3 : Int), (3 : Int))] [] [] ∉
          ([] : List Tile) ∧
        pick_free_reachable 16 12 (0, 0) [((3 : Int), (3 : Int))] [] [] ∉
          ([] : List Tile) :=
  ⟨⟨((3 : Int), (3 : Int)), by decide⟩,
    pick_free_reachable_safe 16 12 (0, 0) [((3 : Int), (3 : Int))] [] []
      ⟨((3 : Int), (3 : Int)), by decide⟩⟩

/-- C3 counterexample: with `preferred = (0,0)` and two free reachable tiles
at Chebyshev distance 12, the spec's radius-12 box finds `(12,0)` while the
source (radii 1..11 via `range(1, 12)`) falls through to the reachable-set
scan and returns `(12,5)`, the first tile in iteration order. -/
theorem resolve_spec_radius_counterexample :
    resolve_spec 16 12 (0, 0)
        [((12 : Int), (5 : Int)), ((12 : Int), (0 : Int))] [] [] =
        ((12 : Int), (0 : Int)) ∧
      pick_free_reachable 16 12 (0, 0)
          [((12 : Int), (5 : Int)), ((12 : Int), (0 : Int))] [] [] =
        ((12 : Int), (5 : Int)) := by
  constructor <;> (set_option maxRecDepth 10000 in decide)

/-- C3 amended: `_pick_free_reachable` returns `preferred` unchanged when it
is reachable, non-solid and unoccupied; otherwise it performs the expanding
square search for radii r = 1..11 (not 1..12) in the source's scan order,
then scans the reachable set in iteration order for a free tile, and as a
last resort returns `preferred` unchanged without raising. -/
theorem pick_free_reachable_contract (w h : Nat) (preferred : Tile)
    (reachable occupied solid : List Tile) :
    pick_free_reachable w h preferred reachable occupied solid =
      resolve_amended w h preferred reachable occupied solid :=
  (resolve_amended_eq w h preferred reachable occupied solid).symm

-- BFS reachability (GameEngine._compute_reachable) ----------------------

/-- The four cardinal directions, in the source's order. -/
def dirs : List Tile := [(1, 0), (-1, 0), (0, 1), (0, -1)]

/-- The 4-neighbourhood of a tile. -/
def nbrs (t : Tile) : List Tile := dirs.map (fun d => (t.1 + d.1, t.2 + d.2))

/-- One neighbour update of the BFS loop body: push the neighbour onto the
queue and mark it seen when it is in bounds, not solid and unseen. -/
def bfs_step (w h : Nat) (solid : List Tile) (qs : List Tile × List Tile)
    (n : Tile) : List Tile × List Tile :=
  if in_bounds w h n && !(solid.contains n) && !(qs.2.contains n) then
    (qs.1 ++ [n], qs.2 ++ [n])
  else qs

/-- Process one popped tile: fold the neighbour update over its
4-neighbourhood, as the inner `for dx, dy in ...` loop does. -/
def bfs_push (w h : Nat) (solid : List Tile) (t : Tile)
    (acc : List Tile × List Tile) : List Tile × List Tile :=
  (nbrs t).foldl (bfs_step w h solid) acc

/-- The `while q:` loop of `_compute_reachable`, with explicit fuel. The
source loop always terminates because every pushed tile is simultaneously
marked seen; `compute_reachable` supplies fuel `w*h + 1`, which the
correctness proof shows is sufficient. -/
def bfs_aux (w h : Nat) (solid : List Tile) :
    Nat → List Tile → List Tile → List Tile
  | 0, _, seen => seen
  | _ + 1, [], seen => seen
  | fuel + 1, t :: q, seen =>
    bfs_aux w h solid fuel (bfs_push w h solid t (q, seen)).1
      (bfs_push w h solid t (q, seen)).2

/-- `GameEngine._compute_reachable` (src/game_generator.py:3318-3335): if the
start tile is solid it is discarded from a copy of the set, then a queue BFS
from `start` collects every tile reachable through in-bounds non-solid
tiles. -/
def compute_reachable (w h : Nat) (solid : List Tile) (start : Tile) :
    List Tile :=
  bfs_aux w h
    (if solid.contains start then solid.filter (fun t => t ≠ start) else solid)
    (w * h + 1) [start] [start]

/-- A tile is open for the reachability analysis when it is in bounds and
either non-solid or the start tile itself (which is treated as open). -/
def open_tile (w h : Nat) (solid : List Tile) (start t : Tile) : Bool :=
  in_bounds w h t && (!(solid.contains t) || t == start)

/-- Connectivity from `a` through tiles satisfying the boolean open
predicate `p` via 4-directional adjacency (`a` itself is unconstrained). -/
inductive ReachesVia (p : Tile → Bool) (a : Tile) : Tile → Prop
  | refl : ReachesVia p a a
  | step {b c : Tile} : ReachesVia p a b → c ∈ nbrs b → p c = true →
      ReachesVia p a c

/-- All in-bounds tiles of the `w × h` grid. -/
def all_tiles (w h : Nat) : List Tile :=
  (List.range w).flatMap (fun x =>
    (List.range h).map (fun y => (Int.ofNat x, Int.ofNat y)))

-- BFS helper lemmas -----------------------------------------------------

lemma all_tiles_length (w h : Nat) : (all_tiles w h).length = w * h := by
  unfold all_tiles
  rw [List.length_flatMap]
  have hm : ((List.range w).map (List.length ∘ fun x =>
      (List.range h).map (fun y => ((Int.ofNat x, Int.ofNat y) : Tile))))
      = (List.range w).map (fun _ => h) := by
    apply List.map_congr_left
    intro x _
    simp only [Function.comp_apply]
    rw [List.length_map, List.length_range]
  rw [hm, List.map_const', List.sum_replicate, List.length_range, smul_eq_mul]

lemma mem_all_tiles {w h : Nat} {t : Tile} (ht : in_bounds w h t = true) :
    t ∈ all_tiles w h := by
  unfold in_bounds at ht
  simp only [Bool.and_eq_true, decide_eq_true_eq] at ht
  obtain ⟨⟨⟨hx0, hxw⟩, hy0⟩, hyh⟩ := ht
  unfold all_tiles
  rw [List.mem_flatMap]
  refine ⟨t.1.toNat, ?_, ?_⟩
  · rw [List.mem_range]
    omega
  · rw [List.mem_map]
    refine ⟨t.2.toNat, by rw [List.mem_range]; omega, ?_⟩
    have h1 : (Int.ofNat t.1.toNat, Int.ofNat t.2.toNat) = (t.1, t.2) := by
      simp only [Int.ofNat_eq_coe]
      rw [Int.toNat_of_nonneg hx0, Int.toNat_of_nonneg hy0]
    rw [h1]

lemma nodup_subset_length {l master : List Tile} (hn : l.Nodup)
    (hs : ∀ t ∈ l, t ∈ master) : l.length ≤ master.length := by
  classical
  have h1 : l.toFinset.card = l.length := List.toFinset_card_of_nodup hn
  have h2 : l.toFinset ⊆ master.toFinset := by
    intro x hx
    rw [List.mem_toFinset] at hx ⊢
    exact hs x hx
  have h3 := Finset.card_le_card h2
  have h4 : master.toFinset.card ≤ master.length := master.toFinset_card_le
  omega

lemma foldl_bfs_step_char (w h : Nat) (solid : List Tile) :
    ∀ (ns q seen : List Tile),
      ∃ news : List Tile,
        ns.foldl (bfs_step w h solid) (q, seen) = (q ++ news, seen ++ news) ∧
          news.Nodup ∧
            (∀ n ∈ news, n ∈ ns ∧
                (in_bounds w h n && !(solid.contains n)) = true ∧ n ∉ seen) ∧
              (∀ n ∈ ns, (in_bounds w h n && !(solid.contains n)) = true →
                n ∈ seen ++ news) := by
  intro ns
  induction ns with
  | nil =>
    intro q seen
    exact ⟨[], by simp, by simp, by simp, by simp⟩
  | cons n rest ih =>
    intro q seen
    rw [List.foldl_cons]
    by_cases hc :
        (in_bounds w h n && !(solid.contains n) && !(seen.contains n)) = true
    · have hstep : bfs_step w h solid (q, seen) n = (q ++ [n], seen ++ [n]) := by
        unfold bfs_step
        rw [hc]
        simp
      obtain ⟨news, heq, hnd, hprop, hcover⟩ := ih (q ++ [n]) (seen ++ [n])
      simp only [Bool.and_eq_true, Bool.not_eq_true',
        List.elem_eq_mem, decide_eq_false_iff_not] at hc
      refine ⟨n :: news, ?_, ?_, ?_, ?_⟩
      · rw [hstep, heq]
        simp
      · refine List.nodup_cons.mpr ⟨?_, hnd⟩
        intro hmem
        have := (hprop n hmem).2.2
        simp at this
      · intro m hm
        rcases List.mem_cons.mp hm with hmn | hmr
        · subst hmn
          exact ⟨List.mem_cons_self _ _, by simp [hc.1.1, hc.1.2], hc.2⟩
        · obtain ⟨hm1, hm2, hm3⟩ := hprop m hmr
          refine ⟨List.mem_cons_of_mem _ hm1, hm2, ?_⟩
          intro hms
          exact hm3 (by simp [hms])
      · intro m hm hopen
        rcases List.mem_cons.mp hm with hmn | hmr
        · subst hmn
          simp
        · have := hcover m hmr hopen
          simp only [List.append_assoc, List.singleton_append] at this
          exact this
    · have hstep : bfs_step w h solid (q, seen) n = (q, seen) := by
        unfold bfs_step
        rw [if_neg]
        simp only [hc, Bool.false_eq_true, not_false_eq_true]
      obtain ⟨news, heq, hnd, hprop, hcover⟩ := ih q seen
      refine ⟨news, by rw [hstep, heq], hnd, ?_, ?_⟩
      · intro m hm
        obtain ⟨hm1, hm2, hm3⟩ := hprop m hm
        exact ⟨List.mem_cons_of_mem _ hm1, hm2, hm3⟩
      intro m hm hopen
      rcases List.mem_cons.mp hm with hmn | hmr
      · subst hmn
        have hseen : m ∈ seen := by
          by_contra hns
          apply hc
          simp only [Bool.and_eq_true, Bool.not_eq_true', List.elem_eq_mem,
            decide_eq_false_iff_not]
          simp only [Bool.and_eq_true] at hopen
          exact ⟨⟨hopen.1, by simpa using hopen.2⟩, hns⟩
        exact List.mem_append_left _ hseen
      · exact hcover m hmr hopen

lemma bfs_aux_spec (w h : Nat) (solid : List Tile) (start : Tile) :
    ∀ (fuel : Nat) (q seen : List Tile),
      (∀ t ∈ q, t ∈ seen) →
      seen.Nodup →
      (∀ t ∈ seen, t ∈ start :: all_tiles w h) →
      (∀ t ∈ seen,
        ReachesVia (fun n => in_bounds w h n && !(solid.contains n)) start t) →
      (∀ t ∈ seen, t ∉ q → ∀ n ∈ nbrs t,
        (in_bounds w h n && !(solid.contains n)) = true → n ∈ seen) →
      (q.length + (w * h + 1 - seen.length) ≤ fuel) →
      ((∀ t ∈ seen, t ∈ bfs_aux w h solid fuel q seen) ∧
        (∀ t ∈ bfs_aux w h solid fuel q seen,
          ReachesVia (fun n => in_bounds w h n && !(solid.contains n)) start t) ∧
          (∀ t ∈ bfs_aux w h solid fuel q seen, ∀ n ∈ nbrs t,
            (in_bounds w h n && !(solid.contains n)) = true →
              n ∈ bfs_aux w h solid fuel q seen)) := by
  intro fuel
  induction fuel with
  | zero =>
    intro q seen hsub hnd hmaster hsound hclosed hfuel
    have hq : q = [] := by
      have : q.length = 0 := by omega
      exact List.length_eq_zero.mp this
    subst hq
    simp only [bfs_aux]
    exact ⟨fun t ht => ht, hsound,
      fun t ht n hn hop => hclosed t ht (List.not_mem_nil t) n hn hop⟩
  | succ fuel ih =>
    intro q seen hsub hnd hmaster hsound hclosed hfuel
    cases q with
    | nil =>
      simp only [bfs_aux]
      exact ⟨fun t ht => ht, hsound,
        fun t ht n hn hop => hclosed t ht (List.not_mem_nil t) n hn hop⟩
    | cons t q =>
      obtain ⟨news, heq, hndnews, hprop, hcover⟩ :=
        foldl_bfs_step_char w h solid (nbrs t) q seen
      have hpush : bfs_push w h solid t (q, seen) = (q ++ news, seen ++ news) :=
        heq
      have hrun : bfs_aux w h solid (fuel + 1) (t :: q) seen =
          bfs_aux w h solid fuel (q ++ news) (seen ++ news) := by
        simp only [bfs_aux, hpush]
      have htseen : t ∈ seen := hsub t (List.mem_cons_self t q)
      have hdisj : ∀ x ∈ news, x ∉ seen := fun x hx => (hprop x hx).2.2
      have hnd2 : (seen ++ news).Nodup := by
        refine List.Nodup.append hnd hndnews ?_
        intro x hx hx2
        exact hdisj x hx2 hx
      have hmaster2 : ∀ x ∈ seen ++ news, x ∈ start :: all_tiles w h := by
        intro x hx
        rcases List.mem_append.mp hx with hx | hx
        · exact hmaster x hx
        · have hop := (hprop x hx).2.1
          simp only [Bool.and_eq_true] at hop
          exact List.mem_cons_of_mem _ (mem_all_tiles hop.1)
      have hcard : (seen ++ news).length ≤ w * h + 1 := by
        have := nodup_subset_length hnd2 hmaster2
        rw [List.length_cons, all_tiles_length] at this
        omega
      have hsub2 : ∀ x ∈ q ++ news, x ∈ seen ++ news := by
        intro x hx
        rcases List.mem_append.mp hx with hx | hx
        · exact List.mem_append_left _ (hsub x (List.mem_cons_of_mem _ hx))
        · exact List.mem_append_right _ hx
      have hsound2 : ∀ x ∈ seen ++ news,
          ReachesVia (fun n => in_bounds w h n && !(solid.contains n))
            start x := by
        intro x hx
        rcases List.mem_append.mp hx with hx | hx
        · exact hsound x hx
        · obtain ⟨hx1, hx2, _⟩ := hprop x hx
          exact ReachesVia.step (hsound t htseen) hx1 hx2
      have hclosed2 : ∀ x ∈ seen ++ news, x ∉ q ++ news → ∀ n ∈ nbrs x,
          (in_bounds w h n && !(solid.contains n)) = true →
            n ∈ seen ++ news := by
        intro x hx hxq n hn hop
        rcases List.mem_append.mp hx with hx | hx
        · by_cases hxt : x = t
          · subst hxt
            exact hcover n hn hop
          · have hxq' : x ∉ t :: q := by
              intro hmem
              rcases List.mem_cons.mp hmem with hmem | hmem
              · exact hxt hmem
              · exact hxq (List.mem_append_left _ hmem)
            exact List.mem_append_left _ (hclosed x hx hxq' n hn hop)
        · exact absurd (List.mem_append_right q hx) hxq
      have hfuel2 : (q ++ news).length + (w * h + 1 - (seen ++ news).length)
          ≤ fuel := by
        rw [List.length_append] at hcard ⊢
        rw [List.length_append]
        rw [List.length_cons] at hfuel
        omega
      obtain ⟨h1, h2, h3⟩ :=
        ih (q ++ news) (seen ++ news) hsub2 hnd2 hmaster2 hsound2 hclosed2
          hfuel2
      rw [hrun]
      exact ⟨fun x hx => h1 x (List.mem_append_left _ hx), h2, h3⟩

lemma bfs_solid_open_eq (w h : Nat) (solid : List Tile) (start : Tile) :
    (fun n => in_bounds w h n &&
        !((if solid.contains start then
            solid.filter (fun t => t ≠ start) else solid).contains n)) =
      open_tile w h solid start := by
  funext n
  unfold open_tile
  by_cases hs : solid.contains start = true
  · rw [if_pos hs]
    by_cases hn : n = start
    · subst hn
      simp
    · have h1 : (solid.filter (fun t => t ≠ start)).contains n =
          solid.contains n := by
        simp only [List.elem_eq_mem, List.mem_filter, decide_eq_true_eq]
        by_cases hns : n ∈ solid
        · simp [hns, hn]
        · simp [hns]
      rw [h1]
      have hb : (n == start) = false := by simpa using hn
      rw [hb]
      simp
  · rw [if_neg (by simpa using hs)]
    by_cases hn : n = start
    · subst hn
      simp only [beq_self_eq_true, Bool.or_true]
      simp only [Bool.not_eq_true] at hs
      rw [hs]
      simp
    · have : (n == start) = false := by simpa using hn
      rw [this]
      simp

/-- C4: for every solid set and every in-bounds start tile,
`_compute_reachable` returns a set that contains the start tile and consists
of exactly the tiles connected to the start via 4-directional adjacency
through in-bounds, open tiles, where the start tile is treated as open even
when it is in the solid set; every returned tile is in bounds. The embedded
function is total by construction (the fuel `w*h + 1` provably suffices),
and it reads the caller's solid set without mutating it. -/
theorem compute_reachable_correct (w h : Nat) (solid : List Tile)
    (start : Tile) (hstart : in_bounds w h start = true) :
    start ∈ compute_reachable w h solid start ∧
      (∀ t, t ∈ compute_reachable w h solid start ↔
        ReachesVia (open_tile w h solid start) start t) ∧
        (∀ t ∈ compute_reachable w h solid start, in_bounds w h t = true) := by
  have hmain := bfs_aux_spec w h
    (if solid.contains start then
      solid.filter (fun t => t ≠ start) else solid)
    start (w * h + 1) [start] [start]
    (by intro t ht; exact ht)
    (List.nodup_singleton start)
    (by intro t ht
        rw [List.mem_singleton] at ht
        subst ht
        exact List.mem_cons_self _ _)
    (by intro t ht
        rw [List.mem_singleton] at ht
        subst ht
        exact ReachesVia.refl)
    (by intro t ht htq
        rw [List.mem_singleton] at ht
        subst ht
        exact absurd (List.mem_singleton_self t) htq)
    (by simp only [List.length_singleton]; omega)
  obtain ⟨h1, h2, h3⟩ := hmain
  have hR : compute_reachable w h solid start =
      bfs_aux w h
        (if solid.contains start then
          solid.filter (fun t => t ≠ start) else solid)
        (w * h + 1) [start] [start] := rfl
  have hopen := bfs_solid_open_eq w h solid start
  have hstartR : start ∈ compute_reachable w h solid start := by
    rw [hR]
    exact h1 start (List.mem_singleton_self start)
  refine ⟨hstartR, ?_, ?_⟩
  · intro t
    constructor
    · intro ht
      rw [hR] at ht
      have := h2 t ht
      rwa [hopen] at this
    · intro hreach
      induction hreach with
      | refl => exact hstartR
      | step hb hn hop ihb =>
        rw [hR] at ihb ⊢
        refine h3 _ ihb _ hn ?_
        rw [congrFun hopen _]
        exact hop
  · intro t ht
    rw [hR] at ht
    have := h2 t ht
    rw [hopen] at this
    induction this with
    | refl => exact hstart
    | step hb hn hop ihb =>
      unfold open_tile at hop
      simp only [Bool.and_eq_true] at hop
      exact hop.1

theorem compute_reachable_correct_witness :
    in_bounds 16 12 ((0 : Int), (0 : Int)) = true ∧
      ((0 : Int), (0 : Int)) ∈ compute_reachable 16 12
        [((1 : Int), (0 : Int)), ((0 : Int), (1 : Int))]
        ((0 : Int), (0 : Int)) ∧
      (((5 : Int), (5 : Int)) ∈ compute_reachable 16 12
          [((1 : Int), (0 : Int)), ((0 : Int), (1 : Int))]
          ((0 : Int), (0 : Int)) ↔
        ReachesVia
          (open_tile 16 12 [((1 : Int), (0 : Int)), ((0 : Int), (1 : Int))]
            ((0 : Int), (0 : Int)))
          ((0 : Int), (0 : Int)) ((5 : Int), (5 : Int))) :=
  ⟨by decide,
    (compute_reachable_correct 16 12
      [((1 : Int), (0 : Int)), ((0 : Int), (1 : Int))]
      ((0 : Int), (0 : Int)) (by decide)).1,
    (compute_reachable_correct 16 12
      [((1 : Int), (0 : Int)), ((0 : Int), (1 : Int))]
      ((0 : Int), (0 : Int)) (by decide)).2.1 ((5 : Int), (5 : Int))⟩

-- Entity placement (GameEngine._ensure_entity_positions) ----------------

/-- Clamp a coordinate pair into the map, as `clamp_tile` does in
`_ensure_entity_positions`. -/
def clamp_tile (w h : Nat) (t : Tile) : Tile :=
  (max 0 (min ((w : Int) - 1) t.1), max 0 (min ((h : Int) - 1) t.2))

/-- `GameEngine._find_open_tile` (src/game_generator.py:3304-3316): keep the
tile if it is not solid, otherwise scan boxes of radius `range(1, 5)` for
the first in-bounds non-solid tile, else return the tile unchanged. -/
def find_open_tile (w h : Nat) (solid : List Tile) (t : Tile) : Tile :=
  if !(solid.contains t) then t
  else
    match (List.range' 1 4).findSome? (fun r =>
        (box_tiles t r).find? (fun n =>
          in_bounds w h n && !(solid.contains n))) with
    | some n => n
    | none => t

/-- One `place(entity, ...)` step of `_ensure_entity_positions`: clamp, move
off solid tiles, then resolve against reachability and occupancy. -/
def place_tile (w h : Nat) (reachable solid occupied : List Tile)
    (pref : Tile) : Tile :=
  pick_free_reachable w h (find_open_tile w h solid (clamp_tile w h pref))
    reachable occupied solid

/-- Sequential placement: each placed tile is appended to the occupied
accumulator before the next entity is placed. -/
def place_all (w h : Nat) (reachable solid : List Tile) :
    List Tile → List Tile → List Tile
  | _, [] => []
  | occupied, p :: ps =>
    place_tile w h reachable solid occupied p ::
      place_all w h reachable solid
        (occupied ++ [place_tile w h reachable solid occupied p]) ps

/-- `GameEngine._ensure_entity_positions` (src/game_generator.py:3365-3392):
the reachable set is computed by BFS from the spawn tile over the current
solid set, the occupied accumulator starts as `{start}`, and the NPC, the
quest items, and (when present) the mix station, chest and door are placed
in that order. The source's per-coordinate defaults `(5,4)`, `(8,6)`,
`(9,5)`, `(12,4)`, `(14,6)` for absent coordinates are folded into the
preferred coordinates supplied here. -/
def ensure_entity_positions (w h : Nat) (solid : List Tile) (start : Tile)
    (npc : Option Tile) (items : List Tile)
    (mix_station chest door : Option Tile) : List Tile :=
  place_all w h (compute_reachable w h solid start) solid [start]
    (npc.toList ++ items ++ mix_station.toList ++ chest.toList ++
      door.toList)

lemma place_all_length (w h : Nat) (reachable solid : List Tile) :
    ∀ (prefs occupied : List Tile),
      (place_all w h reachable solid occupied prefs).length = prefs.length := by
  intro prefs
  induction prefs with
  | nil => intro occupied; simp [place_all]
  | cons p ps ih =>
    intro occupied
    simp [place_all, ih]

lemma place_all_reachable_aux (w h : Nat) (reachable solid : List Tile) :
    ∀ (prefs occupied : List Tile) (i : Nat)
      (hi : i < (place_all w h reachable solid occupied prefs).length),
      (∃ t, t ∈ reachable ∧ t ∉ solid ∧
        t ∉ occupied ++
          (place_all w h reachable solid occupied prefs).take i) →
      (place_all w h reachable solid occupied prefs).get ⟨i, hi⟩ ∈
        reachable := by
  intro prefs
  induction prefs with
  | nil =>
    intro occupied i hi
    simp [place_all] at hi
  | cons p ps ih =>
    intro occupied i hi hfree
    cases i with
    | zero =>
      simp only [place_all, List.get_cons_zero]
      simp only [place_all, List.take_zero, List.append_nil] at hfree
      exact (pick_free_reachable_free w h
        (find_open_tile w h solid (clamp_tile w h p))
        reachable occupied solid hfree).1
    | succ j =>
      simp only [place_all] at hi ⊢
      rw [List.length_cons] at hi
      have hj : j < (place_all w h reachable solid
          (occupied ++ [place_tile w h reachable solid occupied p])
          ps).length := by omega
      have hget : (place_tile w h reachable solid occupied p ::
          place_all w h reachable solid
            (occupied ++ [place_tile w h reachable solid occupied p])
            ps).get ⟨j + 1, by simpa using hi⟩ =
          (place_all w h reachable solid
            (occupied ++ [place_tile w h reachable solid occupied p])
            ps).get ⟨j, hj⟩ := rfl
      rw [hget]
      apply ih
      obtain ⟨t, ht1, ht2, ht3⟩ := hfree
      refine ⟨t, ht1, ht2, ?_⟩
      simp only [place_all, List.take_succ_cons] at ht3
      rw [List.append_assoc]
      simpa using ht3

/-- C1 counterexample: with spawn `(0,0)` walled in by solid tiles `(1,0)`
and `(0,1)`, the reachable set is `{(0,0)}` and it is entirely occupied by
the spawn itself, so the NPC with preferred tile `(5,4)` falls through every
search stage of `_pick_free_reachable` and keeps its unreachable tile. -/
theorem ensure_entity_positions_counterexample :
    ensure_entity_positions 16 12
        [((1 : Int), (0 : Int)), ((0 : Int), (1 : Int))]
        ((0 : Int), (0 : Int)) (some ((5 : Int), (4 : Int))) []
        none none none = [((5 : Int), (4 : Int))] ∧
      ((5 : Int), (4 : Int)) ∉ compute_reachable 16 12
        [((1 : Int), (0 : Int)), ((0 : Int), (1 : Int))]
        ((0 : Int), (0 : Int)) := by
  constructor <;> (set_option maxRecDepth 10000 in decide)

/-- C1 amended: at the end of `_ensure_entity_positions`, every placed quest
entity whose placement step still had some reachable, non-solid,
not-yet-occupied tile available occupies a tile of the reachable set
computed by BFS from the spawn tile; when no such tile is left, the entity
keeps its (possibly unreachable) preferred tile. -/
theorem ensure_entity_positions_reachable (w h : Nat) (solid : List Tile)
    (start : Tile) (npc : Option Tile) (items : List Tile)
    (mix_station chest door : Option Tile) (i : Nat)
    (hi : i < (ensure_entity_positions w h solid start npc items
      mix_station chest door).length)
    (hfree : ∃ t, t ∈ compute_reachable w h solid start ∧ t ∉ solid ∧
      t ∉ [start] ++ (ensure_entity_positions w h solid start npc items
        mix_station chest door).take i) :
    (ensure_entity_positions w h solid start npc items
      mix_station chest door).get ⟨i, hi⟩ ∈
        compute_reachable w h solid start := by
  exact place_all_reachable_aux w h (compute_reachable w h solid start) solid
    (npc.toList ++ items ++ mix_station.toList ++ chest.toList ++
      door.toList) [start] i hi hfree

theorem ensure_entity_positions_reachable_witness :
    (0 : Nat) < (ensure_entity_positions 3 2 [] ((0 : Int), (0 : Int))
      (some ((1 : Int), (1 : Int))) [] none none none).length ∧
      (∃ t, t ∈ compute_reachable 3 2 [] ((0 : Int), (0 : Int)) ∧
        t ∉ ([] : List Tile) ∧
        t ∉ [((0 : Int), (0 : Int))] ++
          (ensure_entity_positions 3 2 [] ((0 : Int), (0 : Int))
            (some ((1 : Int), (1 : Int))) [] none none none).take 0) ∧
      (ensure_entity_positions 3 2 [] ((0 : Int), (0 : Int))
        (some ((1 : Int), (1 : Int))) [] none none none).get
          ⟨0, by decide⟩ ∈ compute_reachable 3 2 [] ((0 : Int), (0 : Int)) :=
  ⟨by decide, ⟨((1 : Int), (1 : Int)), by decide⟩,
    ensure_entity_positions_reachable 3 2 [] ((0 : Int), (0 : Int))
      (some ((1 : Int), (1 : Int))) [] none none none 0 (by decide)
      ⟨((1 : Int), (1 : Int)), by decide⟩⟩

-- Bridge crossing selection (reset_game, repair_bridge block) -----------

/-- The local `is_land` test of `reset_game`: in bounds, not water, not in
the outdoor solid set. -/
def is_land (w h : Nat) (water solid_outdoor : List Tile) (t : Tile) : Bool :=
  in_bounds w h t && !(water.contains t) && !(solid_outdoor.contains t)

/-- A scored bridge candidate: the two water tiles of the span. -/
structure BridgeCand where
  score : Int
  span1 : Tile
  span2 : Tile
deriving DecidableEq

/-- The candidate enumeration of `reset_game`
(src/game_generator.py:3199-3224): for every water tile, try the horizontal
span `[x,y],[x+1,y]` with banks `(x-1,y)`, `(x+2,y)` and the vertical span
`[x,y],[x,y+1]` with banks `(x,y-1)`, `(x,y+2)`; a candidate is recorded
only when both banks are land and at least one bank is reachable, scored
`+2` per bank on a path tile minus the distance from the spawn coordinate
on the axis perpendicular to the span. -/
def bridge_candidates (w h : Nat)
    (water path solid_outdoor reachable : List Tile) (start : Tile) :
    List BridgeCand :=
  water.flatMap (fun t =>
    (if water.contains (t.1 + 1, t.2) &&
        is_land w h water solid_outdoor (t.1 - 1, t.2) &&
        is_land w h water solid_outdoor (t.1 + 2, t.2) then
      (if reachable.contains (t.1 - 1, t.2) ||
          reachable.contains (t.1 + 2, t.2) then
        [⟨(if path.contains (t.1 - 1, t.2) then 2 else 0) +
            (if path.contains (t.1 + 2, t.2) then 2 else 0) -
            ((t.2 - start.2).natAbs : Int), (t.1, t.2), (t.1 + 1, t.2)⟩]
      else [])
    else []) ++
    (if water.contains (t.1, t.2 + 1) &&
        is_land w h water solid_outdoor (t.1, t.2 - 1) &&
        is_land w h water solid_outdoor (t.1, t.2 + 2) then
      (if reachable.contains (t.1, t.2 - 1) ||
          reachable.contains (t.1, t.2 + 2) then
        [⟨(if path.contains (t.1, t.2 - 1) then 2 else 0) +
            (if path.contains (t.1, t.2 + 2) then 2 else 0) -
            ((t.1 - start.1).natAbs : Int), (t.1, t.2), (t.1, t.2 + 1)⟩]
      else [])
    else []))

/-- Models `candidates.sort(key=lambda v: v[0], reverse=True)` followed by
taking element 0: Python's sort is stable, so the first element of the
descending sort is the earliest-enumerated candidate of maximal score. -/
def pick_best_cand : List BridgeCand → Option BridgeCand
  | [] => none
  | c :: rest =>
    some (rest.foldl (fun best x => if best.score < x.score then x else best) c)

/-- The bridge tile pair chosen by `reset_game`: the best admissible
candidate, or the fixed central vertical span
`{(W//2, H//2), (W//2, H//2+1)}` when no candidate exists. -/
def select_bridge (w h : Nat)
    (water path solid_outdoor reachable : List Tile) (start : Tile) :
    Tile × Tile :=
  match pick_best_cand
      (bridge_candidates w h water path solid_outdoor reachable start) with
  | some c => (c.span1, c.span2)
  | none =>
    ((Int.ofNat (w / 2), Int.ofNat (h / 2)),
      (Int.ofNat (w / 2), Int.ofNat (h / 2) + 1))

/-- `for t in self.bridge_tiles: self.solid_outdoor.add(t)` at the end of
the repair-bridge block of `reset_game`. -/
def add_bridge_solid (solid_outdoor : List Tile) (pair : Tile × Tile) :
    List Tile :=
  solid_outdoor ++ [pair.1, pair.2]

/-- The property claimed of every enumerated candidate: a straight 2-tile
water span whose flanking banks are in-bounds land, at least one bank
reachable, with the documented score. -/
def cand_prop (w h : Nat) (water path solid_outdoor reachable : List Tile)
    (start : Tile) (c : BridgeCand) : Prop :=
  (∃ x y : Int,
    c.span1 = (x, y) ∧ c.span2 = (x + 1, y) ∧
      (x, y) ∈ water ∧ (x + 1, y) ∈ water ∧
        is_land w h water solid_outdoor (x - 1, y) = true ∧
          is_land w h water solid_outdoor (x + 2, y) = true ∧
            ((x - 1, y) ∈ reachable ∨ (x + 2, y) ∈ reachable) ∧
              c.score = (if (x - 1, y) ∈ path then 2 else 0) +
                (if (x + 2, y) ∈ path then 2 else 0) -
                  ((y - start.2).natAbs : Int)) ∨
  (∃ x y : Int,
    c.span1 = (x, y) ∧ c.span2 = (x, y + 1) ∧
      (x, y) ∈ water ∧ (x, y + 1) ∈ water ∧
        is_land w h water solid_outdoor (x, y - 1) = true ∧
          is_land w h water solid_outdoor (x, y + 2) = true ∧
            ((x, y - 1) ∈ reachable ∨ (x, y + 2) ∈ reachable) ∧
              c.score = (if (x, y - 1) ∈ path then 2 else 0) +
                (if (x, y + 2) ∈ path then 2 else 0) -
                  ((x - start.1).natAbs : Int))

lemma bridge_candidates_sound (w h : Nat)
    (water path solid_outdoor reachable : List Tile) (start : Tile) :
    ∀ c ∈ bridge_candidates w h water path solid_outdoor reachable start,
      cand_prop w h water path solid_outdoor reachable start c := by
  intro c hc
  unfold bridge_candidates at hc
  rw [List.mem_flatMap] at hc
  obtain ⟨t, htw, hc⟩ := hc
  rcases List.mem_append.mp hc with hc | hc
  · left
    by_cases h1 : (water.contains (t.1 + 1, t.2) &&
        is_land w h water solid_outdoor (t.1 - 1, t.2) &&
        is_land w h water solid_outdoor (t.1 + 2, t.2)) = true
    · rw [if_pos h1] at hc
      by_cases h2 : (reachable.contains (t.1 - 1, t.2) ||
          reachable.contains (t.1 + 2, t.2)) = true
      · rw [if_pos h2] at hc
        rw [List.mem_singleton] at hc
        subst hc
        simp only [Bool.and_eq_true, List.elem_eq_mem, decide_eq_true_eq]
          at h1
        simp only [Bool.or_eq_true, List.elem_eq_mem, decide_eq_true_eq]
          at h2
        refine ⟨t.1, t.2, rfl, rfl, by simpa using htw, h1.1.1, h1.1.2,
          h1.2, h2, ?_⟩
        simp only [List.elem_eq_mem]
        simp
      · rw [if_neg h2] at hc
        exact absurd hc (List.not_mem_nil c)
    · rw [if_neg h1] at hc
      exact absurd hc (List.not_mem_nil c)
  · right
    by_cases h1 : (water.contains (t.1, t.2 + 1) &&
        is_land w h water solid_outdoor (t.1, t.2 - 1) &&
        is_land w h water solid_outdoor (t.1, t.2 + 2)) = true
    · rw [if_pos h1] at hc
      by_cases h2 : (reachable.contains (t.1, t.2 - 1) ||
          reachable.contains (t.1, t.2 + 2)) = true
      · rw [if_pos h2] at hc
        rw [List.mem_singleton] at hc
        subst hc
        simp only [Bool.and_eq_true, List.elem_eq_mem, decide_eq_true_eq]
          at h1
        simp only [Bool.or_eq_true, List.elem_eq_mem, decide_eq_true_eq]
          at h2
        refine ⟨t.1, t.2, rfl, rfl, by simpa using htw, h1.1.1, h1.1.2,
          h1.2, h2, ?_⟩
        simp only [List.elem_eq_mem]
        simp
      · rw [if_neg h2] at hc
        exact absurd hc (List.not_mem_nil c)
    · rw [if_neg h1] at hc
      exact absurd hc (List.not_mem_nil c)

lemma foldl_best_mem (f : BridgeCand → BridgeCand → BridgeCand)
    (hf : ∀ b x, f b x = b ∨ f b x = x) :
    ∀ (rest : List BridgeCand) (c : BridgeCand),
      rest.foldl f c = c ∨ rest.foldl f c ∈ rest := by
  intro rest
  induction rest with
  | nil => intro c; left; rfl
  | cons x xs ih =>
    intro c
    rw [List.foldl_cons]
    rcases ih (f c x) with hh | hh
    · rcases hf c x with hx | hx
      · left; rw [hh, hx]
      · right; rw [hh, hx]; exact List.mem_cons_self _ _
    · right; exact List.mem_cons_of_mem _ hh

lemma foldl_best_max :
    ∀ (rest : List BridgeCand) (c : BridgeCand),
      c.score ≤ (rest.foldl
          (fun best x => if best.score < x.score then x else best) c).score ∧
        ∀ d ∈ rest, d.score ≤ (rest.foldl
          (fun best x => if best.score < x.score then x else best) c).score := by
  intro rest
  induction rest with
  | nil => intro c; exact ⟨le_refl _, by simp⟩
  | cons x xs ih =>
    intro c
    rw [List.foldl_cons]
    obtain ⟨ih1, ih2⟩ := ih (if c.score < x.score then x else c)
    have hcx : c.score ≤ (if c.score < x.score then x else c).score ∧
        x.score ≤ (if c.score < x.score then x else c).score := by
      by_cases hlt : c.score < x.score
      · rw [if_pos hlt]; exact ⟨le_of_lt hlt, le_refl _⟩
      · rw [if_neg hlt]; exact ⟨le_refl _, le_of_not_lt hlt⟩
    refine ⟨le_trans hcx.1 ih1, ?_⟩
    intro d hd
    rcases List.mem_cons.mp hd with hd | hd
    · subst hd; exact le_trans hcx.2 ih1
    · exact ih2 d hd

lemma pick_best_cand_spec (l : List BridgeCand) (c : BridgeCand)
    (hp : pick_best_cand l = some c) :
    c ∈ l ∧ ∀ d ∈ l, d.score ≤ c.score := by
  cases l with
  | nil => simp [pick_best_cand] at hp
  | cons a rest =>
    simp only [pick_best_cand, Option.some.injEq] at hp
    subst hp
    constructor
    · rcases foldl_best_mem
        (fun best x => if best.score < x.score then x else best) (by
        intro b x
        by_cases hlt : b.score < x.score
        · right; simp only [if_pos hlt]
        · left; simp only [if_neg hlt]) rest a with hh | hh
      · rw [hh]; exact List.mem_cons_self _ _
      · exact List.mem_cons_of_mem _ hh
    · intro d hd
      obtain ⟨h1, h2⟩ := foldl_best_max rest a
      rcases List.mem_cons.mp hd with hd | hd
      · subst hd; exact h1
      · exact h2 d hd

-- Quest state and interactions (GameEngine) -----------------------------

/-- ASCII lowercasing over the character list; models Python `str.lower()`
for the goal-type and item-kind vocabulary, which is ASCII. -/
def str_lower (s : String) : String := ⟨s.data.map Char.toLower⟩

/-- Whitespace stripping at both ends; models Python `str.strip()`. -/
def str_strip (s : String) : String :=
  ⟨((s.data.dropWhile Char.isWhitespace).reverse.dropWhile
    Char.isWhitespace).reverse⟩

/-- `ALLOWED_GOALS` (src/game_generator.py:61). -/
def allowed_goals : List String :=
  ["cure", "key_and_door", "lost_item", "repair_bridge"]

/-- A world pickup item: its id and kind tag. -/
structure QItem where
  id : String
  kind : String
deriving DecidableEq

/-- The engine state observed and mutated by `interact`. Presentation-only
fields (message text, message timer, dialogue rotation, particle effects,
animation phases) are not modelled; pixel positions are modelled at tile
granularity (`px = (player_x + ts/2) // ts`). -/
structure GState where
  questTypes : List String
  scene : String
  entrances : List Tile
  npcPos : Tile
  player : Tile
  bridgeTiles : List Tile
  bridgeRepaired : Bool
  itemsCollected : List String
  items : List QItem
  inventory : List String
  mixStation : Option Tile
  mixedPotion : Bool
  potionGiven : Bool
  npcHealed : Bool
  chest : Option Tile
  chestOpened : Bool
  keySpawned : Bool
  keyCollected : Bool
  keyPos : Option Tile
  door : Option Tile
  doorOpened : Bool
  solid : List Tile
  lostItemFound : Bool
  lostItemReturned : Bool
  talkedToNpc : Bool
  questKnown : Bool
  gameWon : Bool
deriving DecidableEq

/-- The interaction range test `abs(ex - px) <= 1 and abs(ey - py) <= 1`. -/
def adjacent (a b : Tile) : Bool :=
  (a.1 - b.1).natAbs ≤ 1 && (a.2 - b.2).natAbs ≤ 1

/-- The `done_flags` table of `_all_goals_complete`
(src/game_generator.py:3548-3553). -/
def done_flag (s : GState) (g : String) : Option Bool :=
  if g = "cure" then some s.npcHealed
  else if g = "lost_item" then some s.lostItemReturned
  else if g = "key_and_door" then some s.doorOpened
  else if g = "repair_bridge" then some s.bridgeRepaired
  else none

/-- `GameEngine._all_goals_complete` (src/game_generator.py:3545-3557):
false iff some goal type present in the stack has a false completion flag;
goal types outside the table are ignored. -/
def all_goals_complete (s : GState) : Bool :=
  s.questTypes.all (fun g => (done_flag s g).getD true)

/-- `ingredient_ids` as computed in `interact` and `check_pickups`:
ids of items whose kind lowercases to "ingredient". -/
def ingredient_ids (s : GState) : List String :=
  (s.items.filter (fun it => str_lower it.kind = "ingredient")).map QItem.id

/-- The number of collected ingredients. -/
def have_count (s : GState) : Nat :=
  ((ingredient_ids s).filter (fun i => s.itemsCollected.contains i)).length

/-- `GameEngine.has_materials` (src/game_generator.py:3703-3705). -/
def has_materials (collected : List String) : Bool :=
  collected.contains "planks" && collected.contains "rope" &&
    collected.contains "nails"

/-- `set.discard` on the collected-id set, modelled on lists. -/
def discard_id (l : List String) (x : String) : List String :=
  l.filter (fun a => a ≠ x)

/-- The building-transition branch of `interact`: the scene switches to
indoor. The interior construction (renderer, indoor collision map, player
repositioning, messages) is outside the modelled core. -/
def enter_building (s : GState) : GState := { s with scene := "indoor" }

/-- The NPC-talk branch of `interact` (src/game_generator.py:3932-3983):
mark the NPC as talked to, complete the cure goal if the potion is mixed,
complete the lost-item goal if the item was found, mark the quest as known,
and set the win flag when progress completed every goal. -/
def npc_talk (s : GState) : GState :=
  let cureFire := s.questTypes.contains "cure" && !s.npcHealed &&
    s.mixedPotion
  let s2 := if cureFire then
    { s with talkedToNpc := true, potionGiven := true, npcHealed := true }
    else { s with talkedToNpc := true }
  let lostFire := s2.questTypes.contains "lost_item" &&
    !s2.lostItemReturned && s2.lostItemFound
  let s3 := if lostFire then { s2 with lostItemReturned := true } else s2
  let s4 := { s3 with questKnown := true }
  if (cureFire || lostFire) && all_goals_complete s4 then
    { s4 with gameWon := true }
  else s4

/-- Whether some bridge tile is within interaction range. -/
def bridge_adj (s : GState) : Bool :=
  s.bridgeTiles.any (fun b => adjacent b s.player)

/-- Whether the mix station exists and is within interaction range. -/
def mix_adj (s : GState) : Bool :=
  match s.mixStation with
  | some m => adjacent m s.player
  | none => false

/-- Whether the chest exists and is within interaction range. -/
def chest_adj (s : GState) : Bool :=
  match s.chest with
  | some c => adjacent c s.player
  | none => false

/-- Whether the door exists and is within interaction range. -/
def door_adj (s : GState) : Bool :=
  match s.door with
  | some d => adjacent d s.player
  | none => false

/-- `GameEngine.interact` (src/game_generator.py:3793-4084) for states in
the outdoor scene, in the source's branch order: building entrances, quest
NPC, bridge repair, mix station, chest, door, nothing. The indoor branches
(inn room flow, bed, indoor NPCs) are guarded by `scene == "indoor"` in the
source and are not exercised in the outdoor scene. -/
def interact_outdoor (s : GState) : GState :=
  if s.entrances.any (fun e => adjacent e s.player) then enter_building s
  else if adjacent s.npcPos s.player then npc_talk s
  else if s.questTypes.contains "repair_bridge" && !s.bridgeTiles.isEmpty &&
      bridge_adj s then
    if s.bridgeRepaired then s
    else if !(has_materials s.itemsCollected) then s
    else
      (let s1 := { s with
          itemsCollected :=
            (["planks", "rope", "nails"]).foldl discard_id s.itemsCollected
          bridgeRepaired := true
          solid := s.solid.filter (fun t => !(s.bridgeTiles.contains t)) }
      if all_goals_complete s1 then { s1 with gameWon := true } else s1)
  else if s.questTypes.contains "cure" && mix_adj s then
    if s.mixedPotion then s
    else if !(ingredient_ids s).isEmpty &&
        (ingredient_ids s).length ≤ have_count s then
      { s with
          mixedPotion := true
          inventory := s.inventory ++ ["Healing Potion"] }
    else s
  else if s.questTypes.contains "key_and_door" && chest_adj s then
    match s.chest with
    | some c =>
      if !s.chestOpened then
        { s with
            chestOpened := true
            keySpawned := true
            keyPos := some c
            solid := s.solid.filter (fun t => t ≠ c) }
      else s
    | none => s
  else if s.questTypes.contains "key_and_door" && door_adj s then
    match s.door with
    | some d =>
      if s.doorOpened then s
      else if s.keyCollected then
        (let s1 := { s with
            doorOpened := true
            solid := s.solid.filter (fun t => t ≠ d) }
        if all_goals_complete s1 then { s1 with gameWon := true } else s1)
      else s
    | none => s
  else s

/-- C7: `_all_goals_complete` is true iff every goal kind present in the
level's goal stack reports its completion flag true (cure ↦ npc_healed,
lost_item ↦ lost_item_returned, key_and_door ↦ door_opened,
repair_bridge ↦ bridge_repaired); kinds not present are not checked. -/
theorem all_goals_complete_iff (s : GState) :
    all_goals_complete s = true ↔
      (("cure" ∈ s.questTypes → s.npcHealed = true) ∧
        ("lost_item" ∈ s.questTypes → s.lostItemReturned = true) ∧
          ("key_and_door" ∈ s.questTypes → s.doorOpened = true) ∧
            ("repair_bridge" ∈ s.questTypes → s.bridgeRepaired = true)) := by
  unfold all_goals_complete
  rw [List.all_eq_true]
  constructor
  · intro hall
    refine ⟨fun hc => ?_, fun hc => ?_, fun hc => ?_, fun hc => ?_⟩
    · have hd : done_flag s "cure" = some s.npcHealed := rfl
      have := hall _ hc
      rwa [hd, Option.getD_some] at this
    · have hd : done_flag s "lost_item" = some s.lostItemReturned := rfl
      have := hall _ hc
      rwa [hd, Option.getD_some] at this
    · have hd : done_flag s "key_and_door" = some s.doorOpened := rfl
      have := hall _ hc
      rwa [hd, Option.getD_some] at this
    · have hd : done_flag s "repair_bridge" = some s.bridgeRepaired := rfl
      have := hall _ hc
      rwa [hd, Option.getD_some] at this
  · rintro ⟨h1, h2, h3, h4⟩ g hg
    unfold done_flag
    by_cases hc : g = "cure"
    · subst hc
      rw [if_pos rfl, Option.getD_some]
      exact h1 hg
    rw [if_neg hc]
    by_cases hl : g = "lost_item"
    · subst hl
      rw [if_pos rfl, Option.getD_some]
      exact h2 hg
    rw [if_neg hl]
    by_cases hk : g = "key_and_door"
    · subst hk
      rw [if_pos rfl, Option.getD_some]
      exact h3 hg
    rw [if_neg hk]
    by_cases hb : g = "repair_bridge"
    · subst hb
      rw [if_pos rfl, Option.getD_some]
      exact h4 hg
    rw [if_neg hb]
    rfl

/-- C8: with the key_and_door goal active, interacting with a not-yet-opened
chest sets chest_opened and key_spawned, records the key position at the
chest tile, removes the chest tile from the solid set, and leaves
door_opened false; interacting with the door before the key is collected
changes nothing at all in the modelled state (the source only emits a
"locked" message). -/
theorem key_and_door_interact (s : GState) (c d : Tile) :
    ((s.entrances.any (fun e => adjacent e s.player)) = false →
      adjacent s.npcPos s.player = false →
      (s.questTypes.contains "repair_bridge" && !s.bridgeTiles.isEmpty &&
        bridge_adj s) = false →
      (s.questTypes.contains "cure" && mix_adj s) = false →
      s.questTypes.contains "key_and_door" = true →
      s.chest = some c →
      adjacent c s.player = true →
      s.chestOpened = false →
      s.doorOpened = false →
      ((interact_outdoor s).chestOpened = true ∧
        (interact_outdoor s).keySpawned = true ∧
          (interact_outdoor s).keyPos = some c ∧
            c ∉ (interact_outdoor s).solid ∧
              (interact_outdoor s).doorOpened = false)) ∧
    ((s.entrances.any (fun e => adjacent e s.player)) = false →
      adjacent s.npcPos s.player = false →
      (s.questTypes.contains "repair_bridge" && !s.bridgeTiles.isEmpty &&
        bridge_adj s) = false →
      (s.questTypes.contains "cure" && mix_adj s) = false →
      (s.questTypes.contains "key_and_door" && chest_adj s) = false →
      s.questTypes.contains "key_and_door" = true →
      s.door = some d →
      adjacent d s.player = true →
      s.doorOpened = false →
      s.keyCollected = false →
      interact_outdoor s = s ∧ (d ∈ s.solid → d ∈ (interact_outdoor s).solid)) := by
  constructor
  · intro hent hnpc hbr hmix hkd hchest hadj hopen hdoor
    have hca : chest_adj s = true := by
      unfold chest_adj
      rw [hchest]
      exact hadj
    unfold interact_outdoor
    simp only [hent, hnpc, hbr, hmix, hkd, hca, hchest, hopen,
      Bool.false_eq_true, if_false, Bool.and_self, eq_self_iff_true,
      if_true, Bool.not_false]
    simp [hdoor]
  · intro hent hnpc hbr hmix hchg hkd hdoor hadj hopen hkey
    have hda : door_adj s = true := by
      unfold door_adj
      rw [hdoor]
      exact hadj
    have hch2 : chest_adj s = false := by
      rw [hkd] at hchg
      simpa using hchg
    have heq : interact_outdoor s = s := by
      unfold interact_outdoor
      simp only [hent, hnpc, hbr, hmix, hch2, hkd, hda, hdoor, hopen, hkey,
        Bool.false_eq_true, if_false, Bool.and_self, Bool.and_false,
        eq_self_iff_true, if_true]
    exact ⟨heq, fun hd => by rw [heq]; exact hd⟩

/-- A concrete outdoor state exercising the chest interaction: the player
stands just below the chest, away from the NPC and both entrances. -/
def chest_test_state : GState where
  questTypes := ["key_and_door"]
  scene := "outdoor"
  entrances := []
  npcPos := (0, 0)
  player := (12, 5)
  bridgeTiles := []
  bridgeRepaired := false
  itemsCollected := []
  items := []
  inventory := []
  mixStation := none
  mixedPotion := false
  potionGiven := false
  npcHealed := false
  chest := some (12, 4)
  chestOpened := false
  keySpawned := false
  keyCollected := false
  keyPos := none
  door := some (14, 6)
  doorOpened := false
  solid := [(12, 4), (14, 6)]
  lostItemFound := false
  lostItemReturned := false
  talkedToNpc := false
  questKnown := false
  gameWon := false

/-- The same state with the player next to the still-locked door. -/
def door_test_state : GState := { chest_test_state with player := (14, 5) }

theorem key_and_door_interact_witness :
    ((interact_outdoor chest_test_state).chestOpened = true ∧
      (interact_outdoor chest_test_state).keySpawned = true ∧
        (interact_outdoor chest_test_state).keyPos =
          some ((12 : Int), (4 : Int)) ∧
          ((12 : Int), (4 : Int)) ∉ (interact_outdoor chest_test_state).solid ∧
            (interact_outdoor chest_test_state).doorOpened = false) ∧
      (interact_outdoor door_test_state = door_test_state ∧
        (((14 : Int), (6 : Int)) ∈ door_test_state.solid →
          ((14 : Int), (6 : Int)) ∈ (interact_outdoor door_test_state).solid)) :=
  ⟨(key_and_door_interact chest_test_state ((12 : Int), (4 : Int))
      ((14 : Int), (6 : Int))).1 (by decide) (by decide) (by decide)
      (by decide) (by decide) (by decide) (by decide) (by decide) (by decide),
    (key_and_door_interact door_test_state ((12 : Int), (4 : Int))
      ((14 : Int), (6 : Int))).2 (by decide) (by decide) (by decide)
      (by decide) (by decide) (by decide) (by decide) (by decide) (by decide)
      (by decide)⟩

theorem all_goals_complete_iff_witness :
    (all_goals_complete chest_test_state = true ↔
      (("cure" ∈ chest_test_state.questTypes →
          chest_test_state.npcHealed = true) ∧
        ("lost_item" ∈ chest_test_state.questTypes →
            chest_test_state.lostItemReturned = true) ∧
          ("key_and_door" ∈ chest_test_state.questTypes →
              chest_test_state.doorOpened = true) ∧
            ("repair_bridge" ∈ chest_test_state.questTypes →
              chest_test_state.bridgeRepaired = true))) :=
  all_goals_complete_iff chest_test_state

/-- Whether a tile pair is a straight orthogonally adjacent pair: the second
tile is one step right of or one step below the first. -/
def straight_pair (p : Tile × Tile) : Prop :=
  p.2 = (p.1.1 + 1, p.1.2) ∨ p.2 = (p.1.1, p.1.2 + 1)

/-- C5: the selected bridge span is always exactly 2 distinct tiles forming
a straight orthogonal pair; both tiles are added to the outdoor solid set at
reset; and one bridge interaction with all of planks, rope and nails held
removes both tiles from solid, removes those three ids from the collected
set, and sets bridge_repaired. -/
theorem repair_bridge_correct :
    (∀ (w h : Nat) (water path solid_outdoor reachable : List Tile)
        (start : Tile),
      straight_pair
          (select_bridge w h water path solid_outdoor reachable start) ∧
        (select_bridge w h water path solid_outdoor reachable start).1 ≠
          (select_bridge w h water path solid_outdoor reachable start).2) ∧
      (∀ (solid_outdoor : List Tile) (pair : Tile × Tile),
        pair.1 ∈ add_bridge_solid solid_outdoor pair ∧
          pair.2 ∈ add_bridge_solid solid_outdoor pair) ∧
        (∀ s : GState,
          (s.entrances.any (fun e => adjacent e s.player)) = false →
          adjacent s.npcPos s.player = false →
          s.questTypes.contains "repair_bridge" = true →
          s.bridgeTiles ≠ [] →
          bridge_adj s = true →
          s.bridgeRepaired = false →
          has_materials s.itemsCollected = true →
          ((interact_outdoor s).bridgeRepaired = true ∧
            (∀ t ∈ s.bridgeTiles, t ∉ (interact_outdoor s).solid) ∧
              "planks" ∉ (interact_outdoor s).itemsCollected ∧
                "rope" ∉ (interact_outdoor s).itemsCollected ∧
                  "nails" ∉ (interact_outdoor s).itemsCollected)) := by
  refine ⟨?_, ?_, ?_⟩
  · intro w h water path solid_outdoor reachable start
    cases hp : pick_best_cand
        (bridge_candidates w h water path solid_outdoor reachable start) with
    | none =>
      have hx : select_bridge w h water path solid_outdoor reachable start =
          ((Int.ofNat (w / 2), Int.ofNat (h / 2)),
            (Int.ofNat (w / 2), Int.ofNat (h / 2) + 1)) := by
        unfold select_bridge
        rw [hp]
      rw [hx]
      constructor
      · right
        rfl
      · intro heq
        have h2 := congrArg (fun p : Tile => p.2) heq
        simp at h2
    | some c =>
      have hx : select_bridge w h water path solid_outdoor reachable start =
          (c.span1, c.span2) := by
        unfold select_bridge
        rw [hp]
      rw [hx]
      obtain ⟨hmem, _⟩ := pick_best_cand_spec _ _ hp
      have hcp := bridge_candidates_sound w h water path solid_outdoor
        reachable start c hmem
      rcases hcp with ⟨x, y, h1, h2, _⟩ | ⟨x, y, h1, h2, _⟩
      · constructor
        · left
          rw [h1, h2]
        · rw [h1, h2]
          intro heq
          have h3 := congrArg (fun p : Tile => p.1) heq
          simp at h3
      · constructor
        · right
          rw [h1, h2]
        · rw [h1, h2]
          intro heq
          have h3 := congrArg (fun p : Tile => p.2) heq
          simp at h3
  · intro solid_outdoor pair
    unfold add_bridge_solid
    constructor
    · exact List.mem_append_right _ (List.mem_cons_self _ _)
    · exact List.mem_append_right _
        (List.mem_cons_of_mem _ (List.mem_singleton_self _))
  · intro s hent hnpc hq hne hadj hrep hmat
    have hguard : (s.questTypes.contains "repair_bridge" &&
        !s.bridgeTiles.isEmpty && bridge_adj s) = true := by
      rw [hq, hadj]
      have : s.bridgeTiles.isEmpty = false := by
        cases hbt : s.bridgeTiles with
        | nil => exact absurd hbt hne
        | cons a l => rfl
      rw [this]
      rfl
    unfold interact_outdoor
    simp only [hent, hnpc, hguard, hrep, hmat, Bool.false_eq_true, if_false,
      if_true, Bool.not_true]
    split
    · refine ⟨rfl, ?_, ?_, ?_, ?_⟩
      · intro t ht
        simp [List.mem_filter, ht]
      · simp [discard_id, List.mem_filter]
      · simp [discard_id, List.mem_filter]
      · simp [discard_id, List.mem_filter]
    · refine ⟨rfl, ?_, ?_, ?_, ?_⟩
      · intro t ht
        simp [List.mem_filter, ht]
      · simp [discard_id, List.mem_filter]
      · simp [discard_id, List.mem_filter]
      · simp [discard_id, List.mem_filter]

/-- A concrete outdoor state exercising the bridge repair: the player is
adjacent to the first bridge tile and holds all three materials. -/
def bridge_test_state : GState := { chest_test_state with
  questTypes := ["repair_bridge"]
  bridgeTiles := [(8, 6), (8, 7)]
  itemsCollected := ["planks", "rope", "nails"]
  player := (7, 6)
  chest := none
  door := none
  solid := [(8, 6), (8, 7)] }

theorem repair_bridge_correct_witness :
    (straight_pair
        (select_bridge 16 12 [] [] [] [] ((0 : Int), (0 : Int))) ∧
      (select_bridge 16 12 [] [] [] [] ((0 : Int), (0 : Int))).1 ≠
        (select_bridge 16 12 [] [] [] [] ((0 : Int), (0 : Int))).2) ∧
      (((3 : Int), (3 : Int)) ∈
          add_bridge_solid []
            (((3 : Int), (3 : Int)), ((4 : Int), (3 : Int))) ∧
        ((4 : Int), (3 : Int)) ∈
          add_bridge_solid []
            (((3 : Int), (3 : Int)), ((4 : Int), (3 : Int)))) ∧
        ((interact_outdoor bridge_test_state).bridgeRepaired = true ∧
          ((8 : Int), (6 : Int)) ∉ (interact_outdoor bridge_test_state).solid ∧
            ((8 : Int), (7 : Int)) ∉
                (interact_outdoor bridge_test_state).solid ∧
              "planks" ∉ (interact_outdoor bridge_test_state).itemsCollected ∧
                "rope" ∉ (interact_outdoor bridge_test_state).itemsCollected ∧
                  "nails" ∉
                    (interact_outdoor bridge_test_state).itemsCollected) :=
  ⟨repair_bridge_correct.1 16 12 [] [] [] [] ((0 : Int), (0 : Int)),
    repair_bridge_correct.2.1 []
      (((3 : Int), (3 : Int)), ((4 : Int), (3 : Int))),
    (repair_bridge_correct.2.2 bridge_test_state (by decide) (by decide)
        (by decide) (by decide) (by decide) (by decide) (by decide)).1,
    (repair_bridge_correct.2.2 bridge_test_state (by decide) (by decide)
        (by decide) (by decide) (by decide) (by decide) (by decide)).2.1
      ((8 : Int), (6 : Int)) (by decide),
    (repair_bridge_correct.2.2 bridge_test_state (by decide) (by decide)
        (by decide) (by decide) (by decide) (by decide) (by decide)).2.1
      ((8 : Int), (7 : Int)) (by decide),
    (repair_bridge_correct.2.2 bridge_test_state (by decide) (by decide)
        (by decide) (by decide) (by decide) (by decide) (by decide)).2.2.1,
    (repair_bridge_correct.2.2 bridge_test_state (by decide) (by decide)
        (by decide) (by decide) (by decide) (by decide) (by decide)).2.2.2.1,
    (repair_bridge_correct.2.2 bridge_test_state (by decide) (by decide)
        (by decide) (by decide) (by decide) (by decide) (by decide)).2.2.2.2⟩

/-- C6: every enumerated bridge candidate is a straight 2-tile water span
with in-bounds land banks, admissible (at least one bank reachable) and
carries the documented score; the selected candidate is a maximum-scoring
one; and when no candidate exists the selection falls back to the fixed
central vertical pair {(W//2, H//2), (W//2, H//2+1)}. -/
theorem bridge_selection_spec :
    (∀ (w h : Nat) (water path solid_outdoor reachable : List Tile)
        (start : Tile) (c : BridgeCand),
      c ∈ bridge_candidates w h water path solid_outdoor reachable start →
        cand_prop w h water path solid_outdoor reachable start c) ∧
      (∀ (w h : Nat) (water path solid_outdoor reachable : List Tile)
          (start : Tile) (c : BridgeCand),
        pick_best_cand
            (bridge_candidates w h water path solid_outdoor reachable
              start) = some c →
          (select_bridge w h water path solid_outdoor reachable start =
              (c.span1, c.span2) ∧
            c ∈ bridge_candidates w h water path solid_outdoor reachable
                start ∧
              ∀ d ∈ bridge_candidates w h water path solid_outdoor reachable
                start, d.score ≤ c.score)) ∧
        (∀ (w h : Nat) (water path solid_outdoor reachable : List Tile)
            (start : Tile),
          bridge_candidates w h water path solid_outdoor reachable start =
              [] →
            select_bridge w h water path solid_outdoor reachable start =
              ((Int.ofNat (w / 2), Int.ofNat (h / 2)),
                (Int.ofNat (w / 2), Int.ofNat (h / 2) + 1))) := by
  refine ⟨bridge_candidates_sound, ?_, ?_⟩
  · intro w h water path solid_outdoor reachable start c hp
    have hx : select_bridge w h water path solid_outdoor reachable start =
        (c.span1, c.span2) := by
      unfold select_bridge
      rw [hp]
    obtain ⟨h1, h2⟩ := pick_best_cand_spec _ _ hp
    exact ⟨hx, h1, h2⟩
  · intro w h water path solid_outdoor reachable start hemp
    unfold select_bridge
    rw [hemp]
    rfl

theorem bridge_selection_spec_witness :
    (cand_prop 6 3 [((2 : Int), (1 : Int)), ((3 : Int), (1 : Int))] []
        [] [((1 : Int), (1 : Int))] ((1 : Int), (1 : Int))
        ⟨0, ((2 : Int), (1 : Int)), ((3 : Int), (1 : Int))⟩) ∧
      (select_bridge 6 3 [((2 : Int), (1 : Int)), ((3 : Int), (1 : Int))]
          [] [] [((1 : Int), (1 : Int))] ((1 : Int), (1 : Int)) =
        (((2 : Int), (1 : Int)), ((3 : Int), (1 : Int)))) ∧
        (select_bridge 4 4 [] [] [] [] ((0 : Int), (0 : Int)) =
          ((Int.ofNat 2, Int.ofNat 2), (Int.ofNat 2, Int.ofNat 2 + 1))) :=
  ⟨bridge_selection_spec.1 6 3
      [((2 : Int), (1 : Int)), ((3 : Int), (1 : Int))] [] []
      [((1 : Int), (1 : Int))] ((1 : Int), (1 : Int))
      ⟨0, ((2 : Int), (1 : Int)), ((3 : Int), (1 : Int))⟩ (by decide),
    (bridge_selection_spec.2.1 6 3
      [((2 : Int), (1 : Int)), ((3 : Int), (1 : Int))] [] []
      [((1 : Int), (1 : Int))] ((1 : Int), (1 : Int))
      ⟨0, ((2 : Int), (1 : Int)), ((3 : Int), (1 : Int))⟩ (by decide)).1,
    bridge_selection_spec.2.2 4 4 [] [] [] [] ((0 : Int), (0 : Int))
      (by decide)⟩

-- Plaza path layout (TerrainRenderer.generate_layout) -------------------

/-- The plaza branch of `TerrainRenderer.generate_layout`
(src/game_generator.py:2301-2312): a block
`for y in range(cy-2, cy+3): for x in range(cx-3, cx+4)` around the map
center `(cx, cy) = (mw//2, mh//2)`, then one `chance(0.7)` draw per column
for the central row and one per row for the central column. `draws k` is
the outcome of the k-th `chance` call of the branch (the `mw` row draws
first, then the `mh` column draws); `path_tiles` is a set, modelled as a
list with membership semantics. -/
def plaza_paths (mw mh : Nat) (draws : Nat → Bool) : List Tile :=
  ((offs 2).flatMap (fun dy =>
    (offs 3).map (fun dx =>
      (Int.ofNat (mw / 2) + dx, Int.ofNat (mh / 2) + dy)))) ++
  ((List.range mw).filterMap (fun x =>
    if draws x then some (Int.ofNat x, Int.ofNat (mh / 2)) else none)) ++
  ((List.range mh).filterMap (fun y =>
    if draws (mw + y) then some (Int.ofNat (mw / 2), Int.ofNat y) else none))

lemma mem_offs (r : Nat) (a : Int) :
    a ∈ offs r ↔ -(r : Int) ≤ a ∧ a ≤ (r : Int) := by
  unfold offs
  rw [List.mem_map]
  constructor
  · rintro ⟨i, hi, rfl⟩
    rw [List.mem_range] at hi
    simp only [Int.ofNat_eq_coe]
    omega
  · rintro ⟨h1, h2⟩
    refine ⟨(a + (r : Int)).toNat, ?_, ?_⟩
    · rw [List.mem_range]
      omega
    · simp only [Int.ofNat_eq_coe]
      omega

/-- C9: under the plaza layout, the path tile set contains the 5×3 block
centered on the map center; every path tile is either in the generated
7×5 central block or on the central row or central column (the
probabilistic arm roads); and every positive arm draw contributes its
central-row or central-column tile. -/
theorem plaza_layout_spec (mw mh : Nat) (draws : Nat → Bool) :
    (∀ dx dy : Int, -2 ≤ dx → dx ≤ 2 → -1 ≤ dy → dy ≤ 1 →
      (Int.ofNat (mw / 2) + dx, Int.ofNat (mh / 2) + dy) ∈
        plaza_paths mw mh draws) ∧
      (∀ t ∈ plaza_paths mw mh draws,
        (∃ dx dy : Int, -3 ≤ dx ∧ dx ≤ 3 ∧ -2 ≤ dy ∧ dy ≤ 2 ∧
          t = (Int.ofNat (mw / 2) + dx, Int.ofNat (mh / 2) + dy)) ∨
          t.2 = Int.ofNat (mh / 2) ∨ t.1 = Int.ofNat (mw / 2)) ∧
        (∀ x : Nat, x < mw → draws x = true →
          (Int.ofNat x, Int.ofNat (mh / 2)) ∈ plaza_paths mw mh draws) ∧
          (∀ y : Nat, y < mh → draws (mw + y) = true →
            (Int.ofNat (mw / 2), Int.ofNat y) ∈ plaza_paths mw mh draws) := by
  refine ⟨?_, ?_, ?_, ?_⟩
  · intro dx dy h1 h2 h3 h4
    unfold plaza_paths
    refine List.mem_append_left _ (List.mem_append_left _ ?_)
    rw [List.mem_flatMap]
    refine ⟨dy, (mem_offs 2 dy).mpr (by omega), ?_⟩
    rw [List.mem_map]
    exact ⟨dx, (mem_offs 3 dx).mpr (by omega), rfl⟩
  · intro t ht
    unfold plaza_paths at ht
    rcases List.mem_append.mp ht with hab | hc
    · rcases List.mem_append.mp hab with ha | hb
      · left
        rw [List.mem_flatMap] at ha
        obtain ⟨dy, hdy, ha⟩ := ha
        rw [List.mem_map] at ha
        obtain ⟨dx, hdx, rfl⟩ := ha
        rw [mem_offs] at hdy hdx
        exact ⟨dx, dy, by omega, by omega, by omega, by omega, rfl⟩
      · right; left
        rw [List.mem_filterMap] at hb
        obtain ⟨x, _, hx⟩ := hb
        by_cases hd : draws x = true
        · rw [if_pos hd] at hx
          cases hx
          rfl
        · rw [if_neg hd] at hx
          cases hx
    · right; right
      rw [List.mem_filterMap] at hc
      obtain ⟨y, _, hy⟩ := hc
      by_cases hd : draws (mw + y) = true
      · rw [if_pos hd] at hy
        cases hy
        rfl
      · rw [if_neg hd] at hy
        cases hy
  · intro x hx hd
    unfold plaza_paths
    refine List.mem_append_left _ (List.mem_append_right _ ?_)
    rw [List.mem_filterMap]
    exact ⟨x, List.mem_range.mpr hx, by rw [if_pos hd]⟩
  · intro y hy hd
    unfold plaza_paths
    refine List.mem_append_right _ ?_
    rw [List.mem_filterMap]
    exact ⟨y, List.mem_range.mpr hy, by rw [if_pos hd]⟩

theorem plaza_layout_spec_witness :
    ((Int.ofNat (16 / 2) + 2, Int.ofNat (12 / 2) + 1) ∈
        plaza_paths 16 12 (fun k => k % 2 == 0) ∧
      ((∃ dx dy : Int, -3 ≤ dx ∧ dx ≤ 3 ∧ -2 ≤ dy ∧ dy ≤ 2 ∧
          (((8 : Int), (6 : Int)) : Tile) =
            (Int.ofNat (16 / 2) + dx, Int.ofNat (12 / 2) + dy)) ∨
        ((8 : Int), (6 : Int)).2 = Int.ofNat (12 / 2) ∨
          ((8 : Int), (6 : Int)).1 = Int.ofNat (16 / 2)) ∧
        (Int.ofNat 0, Int.ofNat (12 / 2)) ∈
            plaza_paths 16 12 (fun k => k % 2 == 0) ∧
          (Int.ofNat (16 / 2), Int.ofNat 2) ∈
            plaza_paths 16 12 (fun k => k % 2 == 0)) :=
  ⟨(plaza_layout_spec 16 12 (fun k => k % 2 == 0)).1 2 1 (by decide)
      (by decide) (by decide) (by decide),
    (plaza_layout_spec 16 12 (fun k => k % 2 == 0)).2.1
      ((8 : Int), (6 : Int)) (by decide),
    (plaza_layout_spec 16 12 (fun k => k % 2 == 0)).2.2.1 0 (by decide)
      (by decide),
    (plaza_layout_spec 16 12 (fun k => k % 2 == 0)).2.2.2 2 (by decide)
      (by decide)⟩

-- Quest type normalization (_normalize_quest_types, reset_game) ---------

/-- `normalize_goal_type` (src/game_generator.py:262-269): falsy values map
to none; otherwise the value is stripped and lowercased and kept only when
it is one of `ALLOWED_GOALS`. -/
def normalize_goal_type (value : Option String) : Option String :=
  match value with
  | none => none
  | some v =>
    if v = "" then none
    else
      if allowed_goals.contains (str_lower (str_strip v)) then
        some (str_lower (str_strip v))
      else none

/-- One iteration of the `_normalize_quest_types` loop body: append the
normalized goal type unless it is invalid or already present. -/
def nqt_step (gt? : Option String) (out : List String) : List String :=
  match gt? with
  | some gt => if out.contains gt then out else out ++ [gt]
  | none => out

/-- The accumulation loop of `_normalize_quest_types`
(src/game_generator.py:402-411). The source's separate `seen` set always
holds exactly the elements of `out`, so membership is checked against the
output list directly. -/
def nqt_go : List (Option String) → List String → List String
  | [], out => out
  | g :: rest, out => nqt_go rest (nqt_step (normalize_goal_type g) out)

/-- `_normalize_quest_types`: normalize, filter invalid, deduplicate. -/
def normalize_quest_types (raw : List (Option String)) : List String :=
  nqt_go raw []

/-- The raw goal-type list assembled by `reset_game`
(src/game_generator.py:3064-3066):
`quest.get("types") or ([quest.get("type")] if quest.get("type") else [])`. -/
def reset_raw (types : Option (List (Option String))) (typ : Option String) :
    List (Option String) :=
  match types with
  | some l =>
    if l.isEmpty then
      (match typ with
        | some t => if t = "" then [] else [some t]
        | none => [])
    else l
  | none =>
    match typ with
    | some t => if t = "" then [] else [some t]
    | none => []

/-- The `quest_types` field right after `reset_game` normalizes it
(src/game_generator.py:3064-3068): the normalized list, or `["lost_item"]`
when it is empty. -/
def reset_quest_types (types : Option (List (Option String)))
    (typ : Option String) : List String :=
  if (normalize_quest_types (reset_raw types typ)).isEmpty then ["lost_item"]
  else normalize_quest_types (reset_raw types typ)

/-- Modelled from the claim's words: de-duplication keeping the first
occurrence of each element, in order. -/
def first_occurrences (l : List String) : List String :=
  l.foldl (fun acc g => if acc.contains g then acc else acc ++ [g]) []

lemma normalize_goal_type_allowed (v : Option String) (g : String)
    (hg : normalize_goal_type v = some g) : g ∈ allowed_goals := by
  unfold normalize_goal_type at hg
  split at hg
  · cases hg
  · split at hg
    · cases hg
    · split at hg
      · rename_i h1
        cases hg
        exact List.mem_of_elem_eq_true h1
      · cases hg

lemma nqt_step_none (out : List String) : nqt_step none out = out := rfl

lemma nqt_step_some (gt : String) (out : List String) :
    nqt_step (some gt) out =
      if out.contains gt then out else out ++ [gt] := rfl

lemma nqt_go_cons_none {v : Option String} {rest : List (Option String)}
    {out : List String} (hv : normalize_goal_type v = none) :
    nqt_go (v :: rest) out = nqt_go rest out := by
  simp only [nqt_go, hv, nqt_step_none]

lemma nqt_go_cons_some {v : Option String} {rest : List (Option String)}
    {out : List String} {gt : String}
    (hv : normalize_goal_type v = some gt) :
    nqt_go (v :: rest) out =
      if out.contains gt then nqt_go rest out
      else nqt_go rest (out ++ [gt]) := by
  simp only [nqt_go, hv, nqt_step_some]
  by_cases hc : out.contains gt = true
  · rw [if_pos hc, if_pos hc]
  · rw [if_neg hc, if_neg hc]

lemma nqt_go_allowed :
    ∀ (raw : List (Option String)) (out : List String),
      (∀ g ∈ out, g ∈ allowed_goals) →
        ∀ g ∈ nqt_go raw out, g ∈ allowed_goals := by
  intro raw
  induction raw with
  | nil => intro out hout; exact hout
  | cons v rest ih =>
    intro out hout g hg
    cases hv : normalize_goal_type v with
    | none =>
      rw [nqt_go_cons_none hv] at hg
      exact ih out hout g hg
    | some gt =>
      rw [nqt_go_cons_some hv] at hg
      by_cases hc : out.contains gt = true
      · rw [if_pos hc] at hg
        exact ih out hout g hg
      · rw [if_neg hc] at hg
        refine ih (out ++ [gt]) ?_ g hg
        intro x hx
        rcases List.mem_append.mp hx with hx | hx
        · exact hout x hx
        · rw [List.mem_singleton] at hx
          subst hx
          exact normalize_goal_type_allowed v x hv

lemma nqt_go_nodup :
    ∀ (raw : List (Option String)) (out : List String),
      out.Nodup → (nqt_go raw out).Nodup := by
  intro raw
  induction raw with
  | nil => intro out hout; exact hout
  | cons v rest ih =>
    intro out hout
    cases hv : normalize_goal_type v with
    | none =>
      rw [nqt_go_cons_none hv]
      exact ih out hout
    | some gt =>
      rw [nqt_go_cons_some hv]
      by_cases hc : out.contains gt = true
      · rw [if_pos hc]
        exact ih out hout
      · rw [if_neg hc]
        refine ih (out ++ [gt]) ?_
        rw [List.nodup_append]
        refine ⟨hout, List.nodup_singleton gt, ?_⟩
        intro x hx hx2
        rw [List.mem_singleton] at hx2
        subst hx2
        exact hc (List.elem_eq_true_of_mem hx)

lemma nqt_go_eq_foldl :
    ∀ (raw : List (Option String)) (out : List String),
      nqt_go raw out = (raw.filterMap normalize_goal_type).foldl
        (fun acc g => if acc.contains g then acc else acc ++ [g]) out := by
  intro raw
  induction raw with
  | nil => intro out; rfl
  | cons v rest ih =>
    intro out
    rw [List.filterMap_cons]
    cases hv : normalize_goal_type v with
    | none =>
      rw [nqt_go_cons_none hv]
      exact ih out
    | some gt =>
      rw [nqt_go_cons_some hv, List.foldl_cons]
      by_cases hc : out.contains gt = true
      · rw [if_pos hc, if_pos hc]
        exact ih out
      · rw [if_neg hc, if_neg hc]
        exact ih (out ++ [gt])

/-- C10: after reset, the quest-type list contains only allowed goal kinds,
has no duplicates, and is never empty; the normalization keeps the first
occurrence of each valid kind in order; and when no valid kind is supplied
the list defaults to `["lost_item"]`, otherwise it is exactly the
normalized list. -/
theorem quest_types_reset_spec :
    (∀ (types : Option (List (Option String))) (typ : Option String),
      (∀ g ∈ reset_quest_types types typ, g ∈ allowed_goals) ∧
        (reset_quest_types types typ).Nodup ∧
          reset_quest_types types typ ≠ []) ∧
      (∀ raw : List (Option String),
        normalize_quest_types raw =
          first_occurrences (raw.filterMap normalize_goal_type)) ∧
        (∀ (types : Option (List (Option String))) (typ : Option String),
          (normalize_quest_types (reset_raw types typ) = [] →
            reset_quest_types types typ = ["lost_item"]) ∧
            (normalize_quest_types (reset_raw types typ) ≠ [] →
              reset_quest_types types typ =
                normalize_quest_types (reset_raw types typ))) := by
  refine ⟨?_, ?_, ?_⟩
  · intro types typ
    unfold reset_quest_types
    by_cases he : (normalize_quest_types (reset_raw types typ)).isEmpty = true
    · rw [if_pos he]
      refine ⟨?_, List.nodup_singleton _, by simp⟩
      intro g hg
      rw [List.mem_singleton] at hg
      subst hg
      unfold allowed_goals
      simp
    · rw [if_neg he]
      refine ⟨nqt_go_allowed _ [] (by simp), nqt_go_nodup _ [] (by simp), ?_⟩
      intro hnil
      rw [hnil] at he
      exact he rfl
  · intro raw
    exact nqt_go_eq_foldl raw []
  · intro types typ
    constructor
    · intro hnil
      unfold reset_quest_types
      rw [if_pos (by rw [hnil]; rfl)]
    · intro hne
      unfold reset_quest_types
      have hie : (normalize_quest_types (reset_raw types typ)).isEmpty =
          false := by
        cases hx : normalize_quest_types (reset_raw types typ) with
        | nil => exact absurd hx hne
        | cons a l => rfl
      rw [hie]
      simp

theorem quest_types_reset_spec_witness :
    (∀ g ∈ reset_quest_types
        (some [some "cure", some " CURE", some "bogus", some "lost_item"])
        none, g ∈ allowed_goals) ∧
      (normalize_quest_types
          [some "cure", some " CURE", some "bogus", some "lost_item"] =
        first_occurrences
          ([some "cure", some " CURE", some "bogus",
            some "lost_item"].filterMap normalize_goal_type)) ∧
        (reset_quest_types none none = ["lost_item"]) ∧
          (reset_quest_types
              (some [some "cure", some " CURE", some "bogus",
                some "lost_item"]) none =
            normalize_quest_types (reset_raw
              (some [some "cure", some " CURE", some "bogus",
                some "lost_item"]) none)) :=
  ⟨(quest_types_reset_spec.1
      (some [some "cure", some " CURE", some "bogus", some "lost_item"])
      none).1,
    quest_types_reset_spec.2.1
      [some "cure", some " CURE", some "bogus", some "lost_item"],
    (quest_types_reset_spec.2.2 none none).1 (by decide),
    (quest_types_reset_spec.2.2
      (some [some "cure", some " CURE", some "bogus", some "lost_item"])
      none).2 (by decide)⟩
